import Mathlib

/-!
Shallow embedding of the Ingat context broker core (src-tauri), for checking
its natural-language specification.

Modelling conventions:
* Rust `String` is modelled as `List Char`; `str::trim` trims the ASCII
  whitespace recognised by `Char.isWhitespace` on both ends.
* Machine integers (`usize`, `i64` timestamps) are modelled as `Nat`.
* `f32` vector components are modelled as exact rationals `ℚ`; a cosine
  similarity score `dot / (sqrt q_norm * sqrt c_norm)` is represented exactly
  by the pair `(dot, q_norm * c_norm)` standing for `dot / sqrt (q_norm * c_norm)`
  (see `Score`), so no square roots are ever materialised.
* Fallible Rust functions returning `Result<T, DomainError>` become
  `Except DomainError T`; trait objects (`dyn EmbeddingEngine`,
  `dyn VectorStore`, the HTTP transport) become explicit function parameters.
* Effects (`Uuid::new_v4`, `Utc::now`, process spawning, HTTP probes) are
  passed in as parameters or recorded in an explicit action trace.
-/

namespace Ingat

/-- Rust string, modelled as a list of characters. -/
abbrev RStr := List Char

/-- `str::trim`: drop whitespace from both ends (from domain/models/mod.rs usage). -/
def trimChars (s : RStr) : RStr :=
  ((s.dropWhile Char.isWhitespace).reverse.dropWhile Char.isWhitespace).reverse

/-- `str::to_lowercase`, restricted to the ASCII case mapping. -/
def toLowerStr (s : RStr) : RStr := s.map Char.toLower

/-- `str::replace(' ', "-")`: each space character becomes one hyphen. -/
def replaceSpaceWithHyphen (s : RStr) : RStr :=
  s.map fun c => if c = ' ' then '-' else c

/-- `domain/errors.rs`: the `DomainError` enum. -/
inductive DomainError where
  | validation (msg : RStr)
  | limitExceeded (msg : RStr)
  | notFound (msg : RStr)
  | storage (msg : RStr)
  | embedding (msg : RStr)
  | other (msg : RStr)
  deriving DecidableEq, Repr

/-- `domain/models/mod.rs`: the `ContextKind` enum. -/
inductive ContextKind where
  | codeSnippet
  | fixHistory
  | projectSummary
  | discussion
  | toolLog
  | other (label : RStr)
  deriving DecidableEq, Repr

/-- `domain/models/mod.rs`: `ContextEmbedding` (model label and `f32` vector). -/
structure ContextEmbedding where
  model : RStr
  vector : List ℚ
  deriving DecidableEq, Repr

/-- `domain/models/mod.rs`: `ContextRecord`. `Uuid` ids and `DateTime<Utc>`
timestamps are modelled as opaque `Nat` values supplied at construction. -/
structure ContextRecord where
  id : Nat
  project : RStr
  ide : RStr
  file_path : Option RStr
  language : Option RStr
  summary : RStr
  body : RStr
  tags : List RStr
  kind : ContextKind
  embedding : ContextEmbedding
  created_at : Nat
  deriving DecidableEq, Repr

/-- `domain/models/mod.rs`: `ContextSummary`, the read-only projection. -/
structure ContextSummary where
  id : Nat
  project : RStr
  summary : RStr
  kind : ContextKind
  tags : List RStr
  created_at : Nat
  deriving DecidableEq, Repr

/-- `domain/models/mod.rs`: `QueryFilters`. -/
structure QueryFilters where
  project : Option RStr := none
  kind : Option ContextKind := none
  tag : Option RStr := none
  ide : Option RStr := none
  deriving DecidableEq, Repr

/-- `domain/models/mod.rs`: `MAX_TAGS`. -/
def MAX_TAGS : Nat := 12

/-- `domain/models/mod.rs`: `sanitize_single_line`
(`input.lines().next().unwrap_or_default().trim()`). -/
def sanitize_single_line (input : RStr) : RStr :=
  trimChars (input.takeWhile fun c => c ≠ '\n')

/-- `domain/models/mod.rs`: `sanitize_project`
(single-line sanitize, then `replace(['\\', '/', ':'], "-")`). -/
def sanitize_project (input : RStr) : RStr :=
  (sanitize_single_line input).map fun c =>
    if c = '\\' ∨ c = '/' ∨ c = ':' then '-' else c

/-- `domain/models/mod.rs`: `normalize_tags`. Each tag is trimmed, lower-cased,
spaces become hyphens; empty results are dropped and the first `MAX_TAGS`
survivors are kept. Note: the source performs no deduplication. -/
def normalize_tags (tags : List RStr) : List RStr :=
  (tags.filterMap fun tag =>
    let normalized := replaceSpaceWithHyphen (toLowerStr (trimChars tag))
    if normalized.isEmpty then none else some normalized).take MAX_TAGS

/-- `ContextRecord::new`, with the fresh `Uuid` and `Utc::now()` timestamp
passed in explicitly. -/
def ContextRecord.make (freshId now : Nat) (project ide : RStr)
    (file_path language : Option RStr) (summary body : RStr)
    (tags : List RStr) (kind : ContextKind) (embedding : ContextEmbedding) :
    ContextRecord :=
  { id := freshId
    project := sanitize_project project
    ide := sanitize_single_line ide
    file_path := file_path
    language := language
    summary := summary
    body := body
    tags := normalize_tags tags
    kind := kind
    embedding := embedding
    created_at := now }

/-- `ContextRecord::matches_filters`: AND of the present predicates. -/
def ContextRecord.matchesFilters (record : ContextRecord) (filters : QueryFilters) : Bool :=
  (match filters.project with
   | some project => record.project = project
   | none => true) &&
  (match filters.kind with
   | some kind => record.kind = kind
   | none => true) &&
  (match filters.tag with
   | some tag => record.tags.any fun t => t = tag
   | none => true) &&
  (match filters.ide with
   | some ide => record.ide = ide
   | none => true)

/-- `ContextRecord::as_summary`. -/
def ContextRecord.asSummary (record : ContextRecord) : ContextSummary :=
  { id := record.id
    project := record.project
    summary := record.summary
    kind := record.kind
    created_at := record.created_at
    tags := record.tags }

/-! ### Application DTOs (`application/dtos/mod.rs`) -/

/-- `IngestContextRequest`. -/
structure IngestContextRequest where
  project : RStr
  ide : RStr
  file_path : Option RStr
  language : Option RStr
  summary : RStr
  body : RStr
  tags : List RStr
  kind : ContextKind
  deriving DecidableEq, Repr

/-- `SearchRequest` (the filters/limit defaults are applied by serde before
the service sees the value, so the model takes them as plain fields). -/
structure SearchRequest where
  prompt : RStr
  filters : QueryFilters
  limit : Nat
  deriving DecidableEq, Repr

/-- `HealthStatusResponse`. -/
structure HealthStatusResponse where
  ok : Bool
  message : RStr
  details : Option RStr
  deriving DecidableEq, Repr

/-! ### ContextService (`application/services/context_service.rs`) -/

/-- `MAX_BODY_CHARS`. -/
def MAX_BODY_CHARS : Nat := 16000

/-- `MAX_SUMMARY_CHARS`. -/
def MAX_SUMMARY_CHARS : Nat := 640

/-- `ContextService::validate_kind` (the source's `_ => Ok(())` catch-all is
spelled out per constructor). -/
def validate_kind : ContextKind → Except DomainError Unit
  | .other label =>
      if (trimChars label).isEmpty then
        .error (.validation "custom kind label cannot be empty".toList)
      else .ok ()
  | .codeSnippet => .ok ()
  | .fixHistory => .ok ()
  | .projectSummary => .ok ()
  | .discussion => .ok ()
  | .toolLog => .ok ()

/-- `ContextService::validate_payload`: the guard chain, in source order.
`payload.summary.chars().count()` is the length of the char list. -/
def validate_payload (payload : IngestContextRequest) : Except DomainError Unit :=
  if (trimChars payload.project).isEmpty then
    .error (.validation "project is required".toList)
  else if (trimChars payload.ide).isEmpty then
    .error (.validation "ide is required".toList)
  else if (trimChars payload.summary).isEmpty then
    .error (.validation "summary is required".toList)
  else if payload.summary.length > MAX_SUMMARY_CHARS then
    .error (.limitExceeded "summary cannot exceed 640 characters".toList)
  else if (trimChars payload.body).isEmpty then
    .error (.validation "body is required".toList)
  else if payload.body.length > MAX_BODY_CHARS then
    .error (.limitExceeded "body cannot exceed 16000 characters".toList)
  else if payload.tags.length > MAX_TAGS then
    .error (.limitExceeded "tags cannot exceed 12 entries".toList)
  else validate_kind payload.kind

/-- The `dyn EmbeddingEngine` trait object: `embed(model, text) -> vector`. -/
abbrev EmbedFn := RStr → RStr → Except DomainError (List ℚ)

/-- The store side of `ContextService::ingest`: `VectorStore::persist`
as seen by the service (the record goes in, unit or an error comes out). -/
abbrev PersistFn := ContextRecord → Except DomainError Unit

/-- `ContextService::ingest`. The embedder, the store's persist call, the
fresh id, and the clock are explicit parameters; everything else follows the
source line by line. -/
def ingest (embed : EmbedFn) (embedding_model : RStr) (persist : PersistFn)
    (freshId now : Nat) (payload : IngestContextRequest) :
    Except DomainError ContextSummary :=
  match validate_payload payload with
  | .error e => .error e
  | .ok () =>
    match embed embedding_model
        (trimChars payload.summary ++ '\n' :: trimChars payload.body) with
    | .error e => .error e
    | .ok vector =>
      match persist (ContextRecord.make freshId now payload.project payload.ide
          payload.file_path payload.language payload.summary payload.body
          payload.tags payload.kind ⟨embedding_model, vector⟩) with
      | .error e => .error e
      | .ok () =>
        .ok (ContextRecord.make freshId now payload.project payload.ide
          payload.file_path payload.language payload.summary payload.body
          payload.tags payload.kind ⟨embedding_model, vector⟩).asSummary

/-- `ContextService::health`. The store's `ping` result is a parameter (trait
object); `now` stands for the `Utc::now()` string interpolated into the
details. Note the source applies `?` to `self.store.ping()`. -/
def health (ping : Except DomainError Unit) (embedding_model now : RStr) :
    Except DomainError HealthStatusResponse :=
  match ping with
  | .error e => .error e
  | .ok () =>
    .ok { ok := true
          message := "ready".toList
          details := some ("model: ".toList ++ embedding_model ++
            ", checked_at: ".toList ++ now) }

/-! ### Embedded engine (`infrastructure/storage/sled_store.rs`)

The `f32` cosine similarity score `dot / (q_norm.sqrt() * c_norm.sqrt())` is
modelled exactly: a `Score` is the pair `(dot, denomSq)` with `denomSq =
q_norm * c_norm > 0`, standing for the real number `dot / Real.sqrt denomSq`.
Comparisons and the `[-1, 1]` clamp are expressed algebraically on the pair,
which coincides with the real-number order because `denomSq` is positive. -/

/-- An exact cosine-similarity score: the value `dot / sqrt denomSq`. -/
structure Score where
  dot : ℚ
  denomSq : ℚ
  pos : 0 < denomSq

instance : Repr Score where
  reprPrec s _ := repr (s.dot, s.denomSq)

/-- `dot ∕ sqrt x ≤ dot' ∕ sqrt y`, decided by sign analysis and squaring
(valid because `x, y > 0`). Models `f32::total_cmp` on actual scores. -/
def Score.le (a b : Score) : Bool :=
  if a.dot < 0 ∧ 0 ≤ b.dot then true
  else if 0 ≤ a.dot ∧ b.dot < 0 then false
  else if 0 ≤ a.dot then a.dot ^ 2 * b.denomSq ≤ b.dot ^ 2 * a.denomSq
  else b.dot ^ 2 * a.denomSq ≤ a.dot ^ 2 * b.denomSq

/-- The score with value `1.0`. -/
def Score.one : Score := ⟨1, 1, one_pos⟩

/-- The score with value `-1.0`. -/
def Score.negOne : Score := ⟨-1, 1, one_pos⟩

/-- The score with value `0.0`. -/
def Score.zero : Score := ⟨0, 1, one_pos⟩

/-- `.clamp(-1.0, 1.0)` on the exact score: `dot / sqrt denomSq ≥ 1` iff
`0 ≤ dot ∧ denomSq ≤ dot²`, and symmetrically for `≤ -1`. -/
def Score.clamp (s : Score) : Score :=
  if 0 ≤ s.dot ∧ s.denomSq ≤ s.dot ^ 2 then Score.one
  else if s.dot < 0 ∧ s.denomSq ≤ s.dot ^ 2 then Score.negOne
  else s

/-- The accumulation loop of `cosine_similarity`: `Σ qᵢ * cᵢ` over
`query.iter().zip(candidate.iter())` (also yields the norms, with the two
arguments equal). -/
def sumProd : List ℚ → List ℚ → ℚ
  | q :: qs, c :: cs => q * c + sumProd qs cs
  | _, _ => 0

theorem sumProd_self_nonneg (v : List ℚ) : 0 ≤ sumProd v v := by
  induction v with
  | nil => simp [sumProd]
  | cons a as ih => simpa [sumProd] using add_nonneg (mul_self_nonneg a) ih

/-- `SledVectorStore::cosine_similarity`. The source's `dot`/`q_norm`/`c_norm`
loop accumulators are written inline as `sumProd` applications, and the guard
`denom == 0.0` with `denom = q_norm.sqrt() * c_norm.sqrt()` is equivalent (in
exact arithmetic, with both norms nonnegative) to `q_norm * c_norm = 0`. -/
def cosine_similarity (query candidate : List ℚ) : Except DomainError Score :=
  if query.length ≠ candidate.length then
    .error (.embedding ("embedding dimension mismatch: query ".toList ++
      (Nat.repr query.length).toList ++ " vs candidate ".toList ++
      (Nat.repr candidate.length).toList))
  else
    if h : sumProd query query * sumProd candidate candidate = 0 then
      .error (.embedding "cannot compute cosine similarity with zero vector".toList)
    else
      .ok (Score.clamp ⟨sumProd query candidate,
        sumProd query query * sumProd candidate candidate,
        lt_of_le_of_ne (mul_nonneg (sumProd_self_nonneg query)
          (sumProd_self_nonneg candidate)) (Ne.symm h)⟩)

/-- The scan loop of `SledVectorStore::search`: iterate the tree in key
order (the store is modelled as that iteration sequence), skip records that
fail the filters, score the rest, abort on the first scoring error. -/
def sledScan (embedding : ContextEmbedding) (filters : QueryFilters) :
    List ContextRecord → Except DomainError (List (ContextRecord × Score))
  | [] => .ok []
  | record :: rest =>
    if record.matchesFilters filters then
      match cosine_similarity embedding.vector record.embedding.vector with
      | .error e => .error e
      | .ok score =>
        match sledScan embedding filters rest with
        | .error e => .error e
        | .ok tail => .ok ((record, score) :: tail)
    else sledScan embedding filters rest

/-- The comparator `|a, b| b.1.total_cmp(&a.1)` passed to `sort_by`:
descending by score. -/
def scoreDesc (a b : ContextRecord × Score) : Bool := Score.le b.2 a.2

/-- `SledVectorStore::search`: scan, sort descending by score (`sort_by` is
a stable merge sort), truncate to `limit`. -/
def sledSearch (store : List ContextRecord) (embedding : ContextEmbedding)
    (limit : Nat) (filters : QueryFilters) :
    Except DomainError (List (ContextRecord × Score)) :=
  match sledScan embedding filters store with
  | .error e => .error e
  | .ok scored => .ok ((scored.mergeSort scoreDesc).take limit)

/-- `SledVectorStore::projects`: the `BTreeSet` of all `record.project`
values, iterated in ascending order — modelled as sort-then-dedup, which
yields the same sorted duplicate-free list. -/
def sledProjects (store : List ContextRecord) :
    Except DomainError (List RStr) :=
  .ok (((store.map fun r => r.project).mergeSort fun a b => a ≤ b).dedup)

/-! ### ContextService::search (`application/services/context_service.rs`) -/

/-- `SearchResultDto`. -/
structure SearchResultDto where
  id : Nat
  project : RStr
  summary : RStr
  body : RStr
  tags : List RStr
  kind : ContextKind
  score : Score
  created_at : Nat

/-- `SearchResponse`. -/
structure SearchResponse where
  query : RStr
  results : List SearchResultDto

/-- `ContextService::search`, with the embedder a parameter and the active
store being the embedded engine (`sledSearch` over the persisted records). -/
def serviceSearch (embed : EmbedFn) (embedding_model : RStr)
    (store : List ContextRecord) (request : SearchRequest) :
    Except DomainError SearchResponse :=
  if (trimChars request.prompt).isEmpty then
    .error (.validation "prompt cannot be empty".toList)
  else
    match embed embedding_model (trimChars request.prompt) with
    | .error e => .error e
    | .ok query_vector =>
      match sledSearch store ⟨embedding_model, query_vector⟩
          (min (max request.limit 1) 32) request.filters with
      | .error e => .error e
      | .ok found =>
        .ok { query := request.prompt
              results := found.map fun m =>
                { id := m.1.id
                  project := m.1.project
                  summary := m.1.summary
                  body := m.1.body
                  tags := m.1.tags
                  kind := m.1.kind
                  score := m.2
                  created_at := m.1.created_at } }

/-! ### Remote proxy (`infrastructure/http_client/remote_store.rs`) -/

/-- The JSON body assembled by `RemoteVectorStore::search` — exactly the five
serialized fields of the `serde_json::json!` literal. -/
structure RemoteSearchRequest where
  prompt : RStr
  embedding : List ℚ
  limit : Nat
  project : Option RStr
  kind : Option ContextKind
  deriving DecidableEq

/-- One element of the `results` array of the remote search response, holding
just the JSON accessors the source reads (`as_str`/`as_f64`/`from_value`
each modelled as an `Option`). -/
structure RemoteResultItem where
  id : Option Nat
  score : Option ℚ
  project : Option RStr
  ide : Option RStr
  file_path : Option RStr
  language : Option RStr
  summary : Option RStr
  body : Option RStr
  kind : Option ContextKind
  created_at : Option Nat

/-- `RemoteVectorStore::search`: build the request body from the embedding,
limit and filters. Only prompt (always empty), embedding vector, limit,
project and kind are serialized. -/
def buildRemoteSearchRequest (embedding : ContextEmbedding) (limit : Nat)
    (filters : QueryFilters) : RemoteSearchRequest :=
  { prompt := []
    embedding := embedding.vector
    limit := limit
    project := filters.project
    kind := filters.kind }

/-- The `filter_map` over the response's `results` array: items whose id,
kind or timestamp fail to parse are skipped; missing strings default to
empty; the reconstructed records always carry `tags: Vec::new()` and an
`embedding` named "remote" with an empty vector. -/
def parseRemoteResults (items : List RemoteResultItem) :
    List (ContextRecord × ℚ) :=
  items.filterMap fun item =>
    match item.id, item.kind, item.created_at with
    | some id, some kind, some created_at =>
      some ({ id := id
              project := item.project.getD []
              ide := item.ide.getD []
              file_path := item.file_path
              language := item.language
              summary := item.summary.getD []
              body := item.body.getD []
              tags := []
              kind := kind
              embedding := ⟨"remote".toList, []⟩
              created_at := created_at },
            item.score.getD 0)
    | _, _, _ => none

/-- The HTTP transport behind the remote proxy: a request body goes out, a
parsed `results` array (or a transport/parse failure message) comes back. -/
abbrev RemoteTransport := RemoteSearchRequest → Except RStr (List RemoteResultItem)

/-- `RemoteVectorStore::search` end to end over an abstract transport. -/
def remoteSearch (transport : RemoteTransport) (embedding : ContextEmbedding)
    (limit : Nat) (filters : QueryFilters) :
    Except DomainError (List (ContextRecord × ℚ)) :=
  match transport (buildRemoteSearchRequest embedding limit filters) with
  | .error e => .error (.storage ("Search failed: ".toList ++ e))
  | .ok items => .ok (parseRemoteResults items)

/-- `RemoteVectorStore::projects`: a stub that ignores the remote state and
returns an empty list (the source marks it `TODO`). The parameter is the
record set actually persisted by the owning process. -/
def remoteProjects (_ownerRecords : List ContextRecord) :
    Except DomainError (List RStr) :=
  .ok []

/-! ### Process supervisor (`service_manager.rs`) -/

/-- The visible steps `ServiceManager::start` takes, recorded as a trace. -/
inductive SupAction where
  | probe
  | spawnDetached (binaryPath : RStr)
  | sleepMs (n : Nat)
  deriving DecidableEq, Repr

/-- Errors `start()` can report. -/
inductive StartError where
  | binaryNotFound
  | spawnFailed
  | startFailed
  deriving DecidableEq, Repr

/-- The filesystem/network facts `start()` consults, in the order it
consults them: the first health probe, the four binary locations of
`find_binary`, whether the spawn call itself succeeds, and the post-settle
health probe. -/
structure SupervisorEnv where
  probeBefore : Bool
  bundled : Option RStr
  release : Option RStr
  debug : Option RStr
  inPath : Option RStr
  spawnOk : Bool
  probeAfter : Bool

/-- `ServiceManager::find_binary`: first match among the four locations. -/
def find_binary (env : SupervisorEnv) : Option RStr :=
  match env.bundled with
  | some p => some p
  | none =>
    match env.release with
    | some p => some p
    | none =>
      match env.debug with
      | some p => some p
      | none => env.inPath

/-- `ServiceManager::start`, returning the result together with the trace of
probes, spawns and sleeps it performed. -/
def serviceStart (env : SupervisorEnv) : Except StartError Unit × List SupAction :=
  if env.probeBefore then (.ok (), [.probe])
  else
    match find_binary env with
    | none => (.error .binaryNotFound, [.probe])
    | some path =>
      if env.spawnOk then
        if env.probeAfter then
          (.ok (), [.probe, .spawnDetached path, .sleepMs 1500, .probe])
        else
          (.error .startFailed, [.probe, .spawnDetached path, .sleepMs 1500, .probe])
      else (.error .spawnFailed, [.probe])

/-! ### Process supervisor health probe (`ServiceManager::is_running`) -/

/-- A completed HTTP exchange: `ureq` returns `Err` for transport failures
and for 4xx/5xx statuses; successful statuses come back as `Ok`. -/
structure HttpResponse where
  status : Nat
  body : RStr
  deriving DecidableEq

/-- The outcome of the single GET against `/health`. -/
inductive ProbeOutcome where
  | ok (response : HttpResponse)
  | err (msg : RStr)
  deriving DecidableEq

/-- `ServiceManager::is_running`: one GET with a 2-second timeout; healthy
iff the call succeeded with status exactly 200. The body is never read. -/
def is_running (probe : ProbeOutcome) : Bool :=
  match probe with
  | .ok response => response.status = 200
  | .err _ => false

/-- Spec reading of `is_running` (§4.4): "healthy iff status is success and
the body reports a healthy status string" — a success (2xx) status whose
body contains `"healthy"`. Stated only to compare with the source. -/
def is_running_specReading (probe : ProbeOutcome) : Bool :=
  match probe with
  | .ok response =>
      (200 ≤ response.status && response.status < 300) &&
        decide (List.IsInfix "healthy".toList response.body)
  | .err _ => false

/-! ### Availability monitor (`power_manager.rs`) -/

/-- `ServiceState`: the persisted desired state. -/
inductive ServiceState where
  | running
  | stopped
  | unknown
  deriving DecidableEq, Repr

/-- The observable steps of the monitor loop body and the resume handler. -/
inductive MonAction where
  | sleepSecs (n : Nat)
  | sleepMs (n : Nat)
  | healthCheck
  | startAttempt
  deriving DecidableEq, Repr

/-- What one iteration of `monitor_service_health` observes: the desired
state it reads after the poll sleep, and the `is_running` answer it would
get (only consulted when the state is `Running`). -/
structure MonitorObs where
  state : ServiceState
  reachable : Bool

/-- One iteration of the `monitor_service_health` loop: sleep 10 s, read the
desired state; only when it is `Running` probe the service, and only when
that probe fails wait 2 s and attempt a restart. -/
def monitorStep (obs : MonitorObs) : List MonAction :=
  .sleepSecs 10 ::
    (if obs.state = .running then
      if obs.reachable then [.healthCheck]
      else [.healthCheck, .sleepSecs 2, .startAttempt]
    else [])

/-- Finitely many iterations of the unbounded loop, as one trace. -/
def monitorTrace (observations : List MonitorObs) : List MonAction :=
  observations.flatMap monitorStep

/-- `PowerManager::on_resume`: nothing at all unless the desired state is
`Running`; then a 500 ms stabilization sleep, a probe, and a start attempt
only if the probe failed. -/
def onResume (state : ServiceState) (reachable : Bool) : List MonAction :=
  if state = .running then
    if reachable then [.sleepMs 500, .healthCheck]
    else [.sleepMs 500, .healthCheck, .startAttempt]
  else []

/-! ### Helper lemmas -/

/-- Bool classifier: is the result a `Validation` or `LimitExceeded` error? -/
def isValidationOrLimitErr {α : Type} : Except DomainError α → Bool
  | .error (.validation _) => true
  | .error (.limitExceeded _) => true
  | _ => false

/-- Bool classifier: is the result an `Embedding` error? -/
def isEmbeddingErr {α : Type} : Except DomainError α → Bool
  | .error (.embedding _) => true
  | _ => false

theorem Score.le_iff (a b : Score) : Score.le a b = true ↔
    (a.dot < 0 ∧ 0 ≤ b.dot) ∨
    (0 ≤ a.dot ∧ 0 ≤ b.dot ∧ a.dot ^ 2 * b.denomSq ≤ b.dot ^ 2 * a.denomSq) ∨
    (a.dot < 0 ∧ b.dot < 0 ∧ b.dot ^ 2 * a.denomSq ≤ a.dot ^ 2 * b.denomSq) := by
  unfold Score.le
  split_ifs with h1 h2 h3
  · simp [h1]
  · simp only [Bool.false_eq_true, false_iff]
    rintro (⟨ha, _⟩ | ⟨_, hb, _⟩ | ⟨ha, _, _⟩)
    · exact absurd ha (not_lt.mpr h2.1)
    · exact absurd hb (not_le.mpr h2.2)
    · exact absurd ha (not_lt.mpr h2.1)
  · have hb : 0 ≤ b.dot := by
      by_contra hb
      exact h2 ⟨h3, lt_of_not_le hb⟩
    simp only [decide_eq_true_eq]
    constructor
    · intro h
      exact Or.inr (Or.inl ⟨h3, hb, h⟩)
    · rintro (⟨ha, _⟩ | ⟨_, _, h⟩ | ⟨ha, _, _⟩)
      · exact absurd ha (not_lt.mpr h3)
      · exact h
      · exact absurd ha (not_lt.mpr h3)
  · have ha : a.dot < 0 := lt_of_not_le h3
    have hb : b.dot < 0 := by
      by_contra hb
      exact h1 ⟨ha, le_of_not_lt hb⟩
    simp only [decide_eq_true_eq]
    constructor
    · intro h
      exact Or.inr (Or.inr ⟨ha, hb, h⟩)
    · rintro (⟨_, hbge⟩ | ⟨hage, _, _⟩ | ⟨_, _, h⟩)
      · exact absurd hbge (not_le.mpr hb)
      · exact absurd hage (not_le.mpr ha)
      · exact h

theorem scoreLe_total (a b : Score) : Score.le a b || Score.le b a := by
  rw [Bool.or_eq_true, Score.le_iff, Score.le_iff]
  rcases lt_or_le a.dot 0 with ha | ha <;> rcases lt_or_le b.dot 0 with hb | hb
  · rcases le_total (b.dot ^ 2 * a.denomSq) (a.dot ^ 2 * b.denomSq) with h | h
    · exact Or.inl (Or.inr (Or.inr ⟨ha, hb, h⟩))
    · exact Or.inr (Or.inr (Or.inr ⟨hb, ha, h⟩))
  · exact Or.inl (Or.inl ⟨ha, hb⟩)
  · exact Or.inr (Or.inl ⟨hb, ha⟩)
  · rcases le_total (a.dot ^ 2 * b.denomSq) (b.dot ^ 2 * a.denomSq) with h | h
    · exact Or.inl (Or.inr (Or.inl ⟨ha, hb, h⟩))
    · exact Or.inr (Or.inr (Or.inl ⟨hb, ha, h⟩))

theorem scoreLe_trans (a b c : Score) (hab : Score.le a b) (hbc : Score.le b c) :
    Score.le a c := by
  have hx := a.pos
  have hy := b.pos
  have hz := c.pos
  rw [Score.le_iff] at hab hbc ⊢
  rcases hab with ⟨ha, hb⟩ | ⟨ha, hb, h1⟩ | ⟨ha, hb, h1⟩ <;>
    rcases hbc with ⟨hb2, hc⟩ | ⟨hb2, hc, h2⟩ | ⟨hb2, hc, h2⟩
  · exact absurd hb (not_le.mpr hb2)
  · exact Or.inl ⟨ha, hc⟩
  · exact absurd hb (not_le.mpr hb2)
  · exact absurd hb2 (not_lt.mpr hb)
  · refine Or.inr (Or.inl ⟨ha, hc, ?_⟩)
    nlinarith [mul_le_mul_of_nonneg_right h1 hz.le, mul_le_mul_of_nonneg_right h2 hx.le]
  · exact absurd hb2 (not_lt.mpr hb)
  · exact Or.inl ⟨ha, hc⟩
  · exact absurd hb2 (not_le.mpr hb)
  · refine Or.inr (Or.inr ⟨ha, hc, ?_⟩)
    nlinarith [mul_le_mul_of_nonneg_right h2 hx.le, mul_le_mul_of_nonneg_right h1 hz.le]

theorem scoreDesc_total (a b : ContextRecord × Score) : scoreDesc a b || scoreDesc b a :=
  scoreLe_total b.2 a.2

theorem scoreDesc_trans (a b c : ContextRecord × Score)
    (hab : scoreDesc a b) (hbc : scoreDesc b c) : scoreDesc a c :=
  scoreLe_trans c.2 b.2 a.2 hbc hab

theorem sumProd_self_eq_zero {v : List ℚ} (h : ∀ x ∈ v, x = 0) : sumProd v v = 0 := by
  induction v with
  | nil => rfl
  | cons a as ih =>
    have ha : a = 0 := h a (List.mem_cons_self a as)
    have : sumProd as as = 0 := ih fun x hx => h x (List.mem_cons_of_mem a hx)
    simp [sumProd, ha, this]

/-- Everything `sledScan` returns passed the filters and came from the store. -/
theorem sledScan_mem {embedding : ContextEmbedding} {filters : QueryFilters} :
    ∀ {store : List ContextRecord} {out : List (ContextRecord × Score)},
      sledScan embedding filters store = .ok out →
      ∀ p ∈ out, p.1.matchesFilters filters = true ∧ p.1 ∈ store := by
  intro store
  induction store with
  | nil =>
    intro out h p hp
    simp only [sledScan] at h
    cases h
    cases hp
  | cons record rest ih =>
    intro out h p hp
    simp only [sledScan] at h
    by_cases hm : record.matchesFilters filters
    · rw [if_pos hm] at h
      cases hcs : cosine_similarity embedding.vector record.embedding.vector with
      | error e => rw [hcs] at h; cases h
      | ok score =>
        rw [hcs] at h
        cases hrest : sledScan embedding filters rest with
        | error e => rw [hrest] at h; cases h
        | ok tail =>
          rw [hrest] at h
          cases h
          rcases List.mem_cons.mp hp with hp | hp
          · subst hp
            exact ⟨hm, List.mem_cons_self _ _⟩
          · rcases ih hrest p hp with ⟨h1, h2⟩
            exact ⟨h1, List.mem_cons_of_mem _ h2⟩
    · rw [if_neg hm] at h
      rcases ih h p hp with ⟨h1, h2⟩
      exact ⟨h1, List.mem_cons_of_mem _ h2⟩

theorem validate_kind_ok_or_vl (kind : ContextKind) :
    validate_kind kind = .ok () ∨ isValidationOrLimitErr (validate_kind kind) = true := by
  cases kind <;> first
    | exact Or.inl rfl
    | (simp only [validate_kind]
       split_ifs
       · exact Or.inr rfl
       · exact Or.inl rfl)

theorem isValidationOrLimitErr_error_congr {α β : Type} (e : DomainError) :
    isValidationOrLimitErr (Except.error e : Except DomainError α) =
      isValidationOrLimitErr (Except.error e : Except DomainError β) := by
  cases e <;> rfl

/-- Every early return of `validate_payload` is a Validation or LimitExceeded
error; the function never produces any other error kind. -/
theorem validate_payload_ok_or_vl (payload : IngestContextRequest) :
    validate_payload payload = .ok () ∨
      isValidationOrLimitErr (validate_payload payload) = true := by
  unfold validate_payload
  split_ifs <;> first
    | exact Or.inr rfl
    | exact validate_kind_ok_or_vl payload.kind

/-- `ingest` propagates a Validation/LimitExceeded verdict of
`validate_payload` unchanged. -/
theorem ingest_vl_of_validate_vl {payload : IngestContextRequest}
    (embed : EmbedFn) (embedding_model : RStr) (persist : PersistFn)
    (freshId now : Nat)
    (h : isValidationOrLimitErr (validate_payload payload) = true) :
    isValidationOrLimitErr
      (ingest embed embedding_model persist freshId now payload) = true := by
  unfold ingest
  split
  · rename_i e heq
    rw [heq] at h
    exact (isValidationOrLimitErr_error_congr e) ▸ h
  · rename_i u heq
    rw [heq] at h
    simp [isValidationOrLimitErr] at h

/-- On success, `ingest` returns the summary of the record built by
`ContextRecord::new` from the payload. -/
theorem ingest_ok_shape {embed : EmbedFn} {embedding_model : RStr}
    {persist : PersistFn} {freshId now : Nat} {payload : IngestContextRequest}
    {s : ContextSummary}
    (h : ingest embed embedding_model persist freshId now payload = .ok s) :
    ∃ vector, s = (ContextRecord.make freshId now payload.project payload.ide
      payload.file_path payload.language payload.summary payload.body
      payload.tags payload.kind ⟨embedding_model, vector⟩).asSummary := by
  unfold ingest at h
  split at h
  · cases h
  · split at h
    · cases h
    · split at h
      · cases h
      · cases h
        exact ⟨_, rfl⟩

theorem normalize_tags_length (tags : List RStr) :
    (normalize_tags tags).length ≤ MAX_TAGS := by
  simp [normalize_tags]

theorem normalize_tags_mem {tags : List RStr} {t : RStr}
    (ht : t ∈ normalize_tags tags) :
    t.isEmpty = false ∧ (' ' ∉ t) ∧
      ∃ raw ∈ tags, t = replaceSpaceWithHyphen (toLowerStr (trimChars raw)) := by
  have ht' := List.mem_of_mem_take ht
  rcases List.mem_filterMap.mp ht' with ⟨raw, hraw, hf⟩
  simp only at hf
  by_cases hempty : (replaceSpaceWithHyphen (toLowerStr (trimChars raw))).isEmpty
  · rw [if_pos hempty] at hf; cases hf
  · rw [if_neg hempty] at hf
    cases hf
    refine ⟨Bool.eq_false_iff.mpr hempty, ?_, raw, hraw, rfl⟩
    intro hsp
    rcases List.mem_map.mp hsp with ⟨d, _, hd⟩
    by_cases hd' : d = ' '
    · rw [if_pos hd'] at hd; cases hd
    · rw [if_neg hd'] at hd; exact hd' hd

/-- Concrete ingest payload used as the C1 counterexample: two tags that
normalize to the same string. -/
def samplePayload : IngestContextRequest :=
  { project := "demo".toList
    ide := "vscode".toList
    file_path := none
    language := none
    summary := "fix null check".toList
    body := "added guard before deref".toList
    tags := ["Bug Fix".toList, "bug fix".toList]
    kind := .codeSnippet }

/-- The summary `ingest` actually produces for `samplePayload`. -/
def sampleSummary : ContextSummary :=
  { id := 0
    project := "demo".toList
    summary := "fix null check".toList
    kind := .codeSnippet
    tags := ["bug-fix".toList, "bug-fix".toList]
    created_at := 0 }

/-- C1 (counterexample). The claim says stored tags contain no duplicates,
but `normalize_tags` never deduplicates: the valid payload with tags
`["Bug Fix", "bug fix"]` ingests successfully into stored tags
`["bug-fix", "bug-fix"]`, which contain a duplicate. -/
theorem tags_duplicates_counterexample :
    ingest (fun _ _ => .ok [1]) "ingat/simple-hash".toList (fun _ => .ok ())
        0 0 samplePayload = .ok sampleSummary ∧
      ¬ sampleSummary.tags.Nodup := by
  exact ⟨rfl, by decide⟩

/-- C1 (amended). For every successful ingest, the stored (and returned)
tags contain no empty strings and at most 12 entries, and each tag is the
trimmed, lower-cased form of one of the payload's tags with every space
replaced by a hyphen; duplicates are retained. -/
theorem tags_normalized_on_ingest
    (embed : EmbedFn) (embedding_model : RStr) (persist : PersistFn)
    (freshId now : Nat) (payload : IngestContextRequest) (s : ContextSummary)
    (h : ingest embed embedding_model persist freshId now payload = .ok s) :
    s.tags.length ≤ 12 ∧
      s.tags.all (fun t => !t.isEmpty && !t.any (fun c => c == ' ') &&
        payload.tags.any (fun raw =>
          decide (t = replaceSpaceWithHyphen (toLowerStr (trimChars raw))))) = true := by
  rcases ingest_ok_shape h with ⟨vector, hs⟩
  have htags : s.tags = normalize_tags payload.tags := by
    rw [hs]; rfl
  rw [htags]
  refine ⟨normalize_tags_length payload.tags, ?_⟩
  rw [List.all_eq_true]
  intro t ht
  rcases normalize_tags_mem ht with ⟨hne, hnsp, raw, hraw, heq⟩
  have hc : t.any (fun c => c == ' ') = false := by
    apply Bool.eq_false_iff.mpr
    intro hany
    rcases List.any_eq_true.mp hany with ⟨c, hcmem, hcc⟩
    have hceq : c = ' ' := by simpa using hcc
    exact hnsp (hceq ▸ hcmem)
  rw [hne, hc]
  simp only [Bool.not_false, Bool.and_self, Bool.true_and, List.any_eq_true]
  exact ⟨raw, hraw, decide_eq_true_eq.mpr heq⟩

/-- C1 (witness): the amended theorem applied to `samplePayload`. -/
theorem tags_normalized_on_ingest_witness :
    sampleSummary.tags.length ≤ 12 ∧
      sampleSummary.tags.all (fun t => !t.isEmpty && !t.any (fun c => c == ' ') &&
        samplePayload.tags.any (fun raw =>
          decide (t = replaceSpaceWithHyphen (toLowerStr (trimChars raw))))) = true :=
  tags_normalized_on_ingest (fun _ _ => .ok [1]) "ingat/simple-hash".toList
    (fun _ => .ok ()) 0 0 samplePayload sampleSummary rfl

theorem validate_payload_vl_of_not_ok {payload : IngestContextRequest}
    (h : validate_payload payload ≠ .ok ()) :
    isValidationOrLimitErr (validate_payload payload) = true :=
  (validate_payload_ok_or_vl payload).resolve_left h

/-- If `validate_payload` succeeds, every guard condition was false. -/
theorem validate_payload_ok_inversion {payload : IngestContextRequest}
    (hok : validate_payload payload = .ok ()) :
    (trimChars payload.project).isEmpty = false ∧
    (trimChars payload.ide).isEmpty = false ∧
    (trimChars payload.summary).isEmpty = false ∧
    payload.summary.length ≤ MAX_SUMMARY_CHARS ∧
    (trimChars payload.body).isEmpty = false ∧
    payload.body.length ≤ MAX_BODY_CHARS ∧
    payload.tags.length ≤ MAX_TAGS ∧
    validate_kind payload.kind = .ok () := by
  unfold validate_payload at hok
  split_ifs at hok with h1 h2 h3 h4 h5 h6 h7
  exact ⟨Bool.eq_false_iff.mpr h1, Bool.eq_false_iff.mpr h2,
    Bool.eq_false_iff.mpr h3, not_lt.mp h4, Bool.eq_false_iff.mpr h5,
    not_lt.mp h6, not_lt.mp h7, hok⟩

/-- C5: `ingest` rejects an empty/whitespace project or ide, an empty or
over-640-character summary, an empty or over-16000-character body, more than
12 tags, and an `Other` kind with an empty label — always with a Validation
or LimitExceeded error (the model is a total function, so no crash). -/
theorem ingest_rejects_invalid
    (embed : EmbedFn) (embedding_model : RStr) (persist : PersistFn)
    (freshId now : Nat) (payload : IngestContextRequest) :
    ((trimChars payload.project).isEmpty = true →
      isValidationOrLimitErr
        (ingest embed embedding_model persist freshId now payload) = true) ∧
    ((trimChars payload.ide).isEmpty = true →
      isValidationOrLimitErr
        (ingest embed embedding_model persist freshId now payload) = true) ∧
    ((trimChars payload.summary).isEmpty = true ∨ payload.summary.length > 640 →
      isValidationOrLimitErr
        (ingest embed embedding_model persist freshId now payload) = true) ∧
    ((trimChars payload.body).isEmpty = true ∨ payload.body.length > 16000 →
      isValidationOrLimitErr
        (ingest embed embedding_model persist freshId now payload) = true) ∧
    (payload.tags.length > 12 →
      isValidationOrLimitErr
        (ingest embed embedding_model persist freshId now payload) = true) ∧
    (∀ label, payload.kind = .other label → (trimChars label).isEmpty = true →
      isValidationOrLimitErr
        (ingest embed embedding_model persist freshId now payload) = true) := by
  have lift : validate_payload payload ≠ .ok () →
      isValidationOrLimitErr
        (ingest embed embedding_model persist freshId now payload) = true :=
    fun hne => ingest_vl_of_validate_vl embed embedding_model persist freshId now
      (validate_payload_vl_of_not_ok hne)
  refine ⟨fun hc => lift ?_, fun hc => lift ?_, fun hc => lift ?_,
    fun hc => lift ?_, fun hc => lift ?_, fun label hk hc => lift ?_⟩
  all_goals intro hok
  · rcases validate_payload_ok_inversion hok with ⟨h, _⟩
    rw [hc] at h
    cases h
  · rcases validate_payload_ok_inversion hok with ⟨_, h, _⟩
    rw [hc] at h
    cases h
  · rcases validate_payload_ok_inversion hok with ⟨_, _, h, hlen, _⟩
    rcases hc with hc | hc
    · rw [hc] at h
      cases h
    · exact absurd hc (not_lt.mpr hlen)
  · rcases validate_payload_ok_inversion hok with ⟨_, _, _, _, h, hlen, _⟩
    rcases hc with hc | hc
    · rw [hc] at h
      cases h
    · exact absurd hc (not_lt.mpr hlen)
  · rcases validate_payload_ok_inversion hok with ⟨_, _, _, _, _, _, hlen, _⟩
    exact absurd hc (not_lt.mpr hlen)
  · rcases validate_payload_ok_inversion hok with ⟨_, _, _, _, _, _, _, hkind⟩
    rw [hk] at hkind
    simp [validate_kind, hc] at hkind

/-- Payload satisfying all validation rules, used to build C5 witnesses. -/
def basePayload : IngestContextRequest :=
  { project := "p".toList
    ide := "i".toList
    file_path := none
    language := none
    summary := "s".toList
    body := "b".toList
    tags := []
    kind := .codeSnippet }

/-- C5 (witness): the rejection theorem applied to six concrete bad payloads. -/
theorem ingest_rejects_invalid_witness :
    isValidationOrLimitErr (ingest (fun _ _ => .ok [1]) "m".toList
      (fun _ => .ok ()) 0 0 { basePayload with project := " ".toList }) = true ∧
    isValidationOrLimitErr (ingest (fun _ _ => .ok [1]) "m".toList
      (fun _ => .ok ()) 0 0 { basePayload with ide := [] }) = true ∧
    isValidationOrLimitErr (ingest (fun _ _ => .ok [1]) "m".toList
      (fun _ => .ok ()) 0 0
      { basePayload with summary := List.replicate 641 'a' }) = true ∧
    isValidationOrLimitErr (ingest (fun _ _ => .ok [1]) "m".toList
      (fun _ => .ok ()) 0 0
      { basePayload with body := List.replicate 16001 'b' }) = true ∧
    isValidationOrLimitErr (ingest (fun _ _ => .ok [1]) "m".toList
      (fun _ => .ok ()) 0 0
      { basePayload with tags := List.replicate 13 "t".toList }) = true ∧
    isValidationOrLimitErr (ingest (fun _ _ => .ok [1]) "m".toList
      (fun _ => .ok ()) 0 0
      { basePayload with kind := .other " ".toList }) = true :=
  ⟨(ingest_rejects_invalid _ _ _ 0 0 _).1 (by decide),
   (ingest_rejects_invalid _ _ _ 0 0 _).2.1 (by decide),
   (ingest_rejects_invalid _ _ _ 0 0 _).2.2.1 (Or.inr (by norm_num)),
   (ingest_rejects_invalid _ _ _ 0 0 _).2.2.2.1 (Or.inr (by norm_num)),
   (ingest_rejects_invalid _ _ _ 0 0 _).2.2.2.2.1 (by norm_num),
   (ingest_rejects_invalid _ _ _ 0 0 _).2.2.2.2.2 " ".toList rfl (by decide)⟩

/-- C2 (counterexample). With a store whose ping fails, `health` returns
that error — it does not return a response with `ok = false`. -/
theorem health_error_counterexample :
    health (.error (.storage "failed to flush db".toList))
        "ingat/simple-hash".toList "now".toList =
      .error (.storage "failed to flush db".toList) := rfl

/-- C2 (amended). `health` returns `ok = true` with message "ready" when the
store's ping succeeds; when the ping fails, the ping error is propagated to
the caller as an error result instead of surfacing as `ok = false`. -/
theorem health_propagates_ping_error
    (ping : Except DomainError Unit) (embedding_model now : RStr) :
    (ping = .ok () → health ping embedding_model now =
      .ok { ok := true
            message := "ready".toList
            details := some ("model: ".toList ++ embedding_model ++
              ", checked_at: ".toList ++ now) }) ∧
    (∀ e, ping = .error e → health ping embedding_model now = .error e) := by
  constructor
  · intro h
    rw [h]
    rfl
  · intro e h
    rw [h]
    rfl

/-- C2 (witness): the amended health theorem at a concrete success ping and
at a concrete failing ping. -/
theorem health_propagates_ping_error_witness :
    health (.ok ()) "m".toList "t".toList =
      .ok { ok := true
            message := "ready".toList
            details := some ("model: ".toList ++ "m".toList ++
              ", checked_at: ".toList ++ "t".toList) } ∧
    health (.error (.storage "io".toList)) "m".toList "t".toList =
      .error (.storage "io".toList) :=
  ⟨(health_propagates_ping_error (.ok ()) "m".toList "t".toList).1 rfl,
   (health_propagates_ping_error (.error (.storage "io".toList)) "m".toList
     "t".toList).2 (.storage "io".toList) rfl⟩

theorem Score.eqOf {a b : Score} (h1 : a.dot = b.dot)
    (h2 : a.denomSq = b.denomSq) : a = b := by
  cases a
  cases b
  simp_all

/-- C6: the embedded engine's cosine similarity (exact-arithmetic model of
the f32 computation `dot/(|q|·|c|)` clamped to [-1,1]): a nonzero vector
against itself scores exactly 1.0 post-clamp; orthogonal unit vectors score
0.0; mismatched lengths and zero vectors each yield an Embedding error. -/
theorem cosine_similarity_spec :
    (∀ v : List ℚ, sumProd v v ≠ 0 →
      cosine_similarity v v = .ok Score.one) ∧
    (∀ q c : List ℚ, q.length = c.length → sumProd q c = 0 →
      sumProd q q = 1 → sumProd c c = 1 →
      cosine_similarity q c = .ok Score.zero) ∧
    (∀ q c : List ℚ, q.length ≠ c.length →
      isEmbeddingErr (cosine_similarity q c) = true) ∧
    (∀ q c : List ℚ, q.length = c.length →
      ((∀ x ∈ q, x = 0) ∨ (∀ x ∈ c, x = 0)) →
      isEmbeddingErr (cosine_similarity q c) = true) := by
  refine ⟨?_, ?_, ?_, ?_⟩
  · intro v hv
    unfold cosine_similarity
    rw [if_neg fun h => h rfl, dif_neg (mul_ne_zero hv hv)]
    refine congrArg Except.ok ?_
    unfold Score.clamp
    rw [if_pos ⟨sumProd_self_nonneg v, by rw [pow_two]⟩]
  · intro q c hlen hdot hq hc
    unfold cosine_similarity
    rw [if_neg fun h => h hlen,
      dif_neg (show sumProd q q * sumProd c c ≠ 0 by rw [hq, hc]; norm_num)]
    refine congrArg Except.ok ?_
    unfold Score.clamp
    rw [if_neg, if_neg]
    · exact Score.eqOf hdot
        (show sumProd q q * sumProd c c = Score.zero.denomSq by
          rw [hq, hc]; norm_num [Score.zero])
    · rintro ⟨hlt, -⟩
      have hlt' : sumProd q c < 0 := hlt
      rw [hdot] at hlt'
      exact absurd hlt' (lt_irrefl 0)
    · rintro ⟨-, hle⟩
      have hle' : sumProd q q * sumProd c c ≤ sumProd q c ^ 2 := hle
      rw [hdot, hq, hc] at hle'
      norm_num at hle'
  · intro q c hne
    unfold cosine_similarity
    rw [if_pos hne]
    rfl
  · intro q c hlen hzero
    have hmul : sumProd q q * sumProd c c = 0 := by
      rcases hzero with hz | hz
      · rw [sumProd_self_eq_zero hz, zero_mul]
      · rw [sumProd_self_eq_zero hz, mul_zero]
    unfold cosine_similarity
    rw [if_neg fun h => h hlen, dif_pos hmul]
    rfl

/-- C6 (witness): the cosine-similarity theorem at the vectors `[1]` (self),
`[1,0]`/`[0,1]` (orthogonal unit), `[1]`/`[1,2]` (length mismatch) and
`[0]`/`[5]` (zero vector). -/
theorem cosine_similarity_spec_witness :
    cosine_similarity [1] [1] = .ok Score.one ∧
    cosine_similarity [1, 0] [0, 1] = .ok Score.zero ∧
    isEmbeddingErr (cosine_similarity [1] [1, 2]) = true ∧
    isEmbeddingErr (cosine_similarity [0] [5]) = true :=
  ⟨cosine_similarity_spec.1 [1] (by norm_num [sumProd]),
   cosine_similarity_spec.2.1 [1, 0] [0, 1] rfl (by norm_num [sumProd])
     (by norm_num [sumProd]) (by norm_num [sumProd]),
   cosine_similarity_spec.2.2.1 [1] [1, 2] (by norm_num),
   cosine_similarity_spec.2.2.2 [0] [5] rfl
     (Or.inl fun x hx => List.mem_singleton.mp hx)⟩

/-- Contract of the embedded engine's search: on success the rows are sorted
descending by score, no more than `limit` long, and all filter-matching. -/
theorem sledSearch_ok_spec {store : List ContextRecord} {emb : ContextEmbedding}
    {limit : Nat} {filters : QueryFilters} {out : List (ContextRecord × Score)}
    (h : sledSearch store emb limit filters = .ok out) :
    out.Pairwise (fun a b => scoreDesc a b = true) ∧
    out.length ≤ limit ∧
    out.all (fun p => p.1.matchesFilters filters) = true := by
  unfold sledSearch at h
  split at h
  · cases h
  · rename_i scored hscan
    cases h
    refine ⟨?_, ?_, ?_⟩
    · exact List.Pairwise.sublist (List.take_sublist _ _)
        (List.sorted_mergeSort scoreDesc_trans scoreDesc_total scored)
    · rw [List.length_take]
      exact Nat.min_le_left _ _
    · rw [List.all_eq_true]
      intro p hp
      exact (sledScan_mem hscan p (List.mem_mergeSort.mp (List.mem_of_mem_take hp))).1

/-- C4: `search` rejects an empty/whitespace-only prompt with a validation
error; otherwise the embedded engine returns rows sorted descending by
similarity score, at most `limit` of them, all satisfying the filters, and
the service truncates `limit` to `clamp(requested, 1, 32)` before delegating,
so the response never exceeds that many rows and stays sorted. -/
theorem search_spec :
    (∀ (embed : EmbedFn) (embedding_model : RStr) (store : List ContextRecord)
        (request : SearchRequest), (trimChars request.prompt).isEmpty = true →
      serviceSearch embed embedding_model store request =
        .error (.validation "prompt cannot be empty".toList)) ∧
    (∀ (store : List ContextRecord) (emb : ContextEmbedding) (limit : Nat)
        (filters : QueryFilters) (out : List (ContextRecord × Score)),
      sledSearch store emb limit filters = .ok out →
      out.Pairwise (fun a b => scoreDesc a b = true) ∧ out.length ≤ limit ∧
        out.all (fun p => p.1.matchesFilters filters) = true) ∧
    (∀ (embed : EmbedFn) (embedding_model : RStr) (store : List ContextRecord)
        (request : SearchRequest) (resp : SearchResponse),
      serviceSearch embed embedding_model store request = .ok resp →
      resp.results.length ≤ min (max request.limit 1) 32 ∧
        resp.results.Pairwise (fun a b => Score.le b.score a.score = true)) := by
  refine ⟨?_, ?_, ?_⟩
  · intro embed embedding_model store request hc
    unfold serviceSearch
    rw [if_pos hc]
  · intro store emb limit filters out h
    exact sledSearch_ok_spec h
  · intro embed embedding_model store request resp h
    unfold serviceSearch at h
    split_ifs at h
    split at h
    · cases h
    · split at h
      · cases h
      · rename_i vector hev found hsled
        cases h
        obtain ⟨hsort, hlen, -⟩ := sledSearch_ok_spec hsled
        constructor
        · rw [List.length_map]
          exact hlen
        · rw [List.pairwise_map]
          exact hsort

/-- C4 (witness): the search theorem at an all-whitespace prompt, at the
empty store for the engine part, and at a one-letter prompt over the empty
store for the service part. -/
theorem search_spec_witness :
    serviceSearch (fun _ _ => .ok [1]) "m".toList []
        { prompt := " ".toList, filters := {}, limit := 8 } =
      .error (.validation "prompt cannot be empty".toList) ∧
    ((([] : List (ContextRecord × Score)).Pairwise
        (fun a b => scoreDesc a b = true)) ∧
      ([] : List (ContextRecord × Score)).length ≤ 5 ∧
      ([] : List (ContextRecord × Score)).all
        (fun p => p.1.matchesFilters {}) = true) ∧
    (({ query := "x".toList, results := [] } : SearchResponse).results.length ≤
        min (max 8 1) 32 ∧
      ({ query := "x".toList, results := [] } : SearchResponse).results.Pairwise
        (fun a b => Score.le b.score a.score = true)) :=
  ⟨search_spec.1 (fun _ _ => .ok [1]) "m".toList []
      { prompt := " ".toList, filters := {}, limit := 8 } (by decide),
   search_spec.2.1 [] ⟨"m".toList, [1]⟩ 5 {} [] (by simp [sledSearch, sledScan]),
   search_spec.2.2 (fun _ _ => .ok [1]) "m".toList []
      { prompt := "x".toList, filters := {}, limit := 8 }
      { query := "x".toList, results := [] }
      (by unfold serviceSearch
          rw [if_neg (by decide)]
          simp [sledSearch, sledScan])⟩

/-- A persisted record with project "demo", the C3 failing input. -/
def demoRecord : ContextRecord :=
  { id := 7
    project := "demo".toList
    ide := "vscode".toList
    file_path := none
    language := none
    summary := "s".toList
    body := "b".toList
    tags := []
    kind := .codeSnippet
    embedding := ⟨"m".toList, [1]⟩
    created_at := 0 }

/-- C3: the Remote Proxy's `projects` is a stub returning the empty list for
every owner state (the source marks it `TODO`), while the Embedded Engine
returns the distinct project set; at a store holding one record with project
"demo" the two implementations disagree. -/
theorem projects_stub_divergence :
    (∀ ownerRecords : List ContextRecord, remoteProjects ownerRecords = .ok []) ∧
    sledProjects [demoRecord] = .ok ["demo".toList] ∧
    ["demo".toList] ≠ ([] : List RStr) := by
  refine ⟨fun _ => rfl, ?_, by decide⟩
  simp [sledProjects, demoRecord]

/-- C7 (counterexample). A 200 response whose body does not report a healthy
status: the source's `is_running` answers true, while the spec's reading
("status is success and the body reports a healthy status string") is false. -/
theorem is_running_body_counterexample :
    is_running (.ok ⟨200, "status: starting".toList⟩) = true ∧
    is_running_specReading (.ok ⟨200, "status: starting".toList⟩) = false := by
  exact ⟨rfl, by decide⟩

/-- C7 (amended). `is_running` performs the single GET and reports healthy
iff the call succeeded with status exactly 200; the response body is never
examined (any two bodies give the same verdict), and any transport or
non-success error maps to false. -/
theorem is_running_status_only :
    (∀ (status : Nat) (body body' : RStr),
      is_running (.ok ⟨status, body⟩) = is_running (.ok ⟨status, body'⟩)) ∧
    (∀ (status : Nat) (body : RStr),
      is_running (.ok ⟨status, body⟩) = true ↔ status = 200) ∧
    (∀ msg : RStr, is_running (.err msg) = false) := by
  refine ⟨fun _ _ _ => rfl, fun status body => ?_, fun _ => rfl⟩
  simp [is_running]

/-- C8: if the first health probe succeeds, `start()` returns success with
no spawn; with no probe and no binary found it fails with the binary-not-found
error without spawning; otherwise it spawns the found binary detached once,
sleeps the 1.5 s settle interval, re-probes exactly once, and fails with a
start failure iff that second probe is still unreachable. -/
theorem serviceStart_spec (env : SupervisorEnv) :
    (env.probeBefore = true → serviceStart env = (.ok (), [.probe])) ∧
    (env.probeBefore = false → find_binary env = none →
      serviceStart env = (.error .binaryNotFound, [.probe])) ∧
    (∀ path, env.probeBefore = false → find_binary env = some path →
      env.spawnOk = true →
      (serviceStart env).2 = [.probe, .spawnDetached path, .sleepMs 1500, .probe] ∧
      (env.probeAfter = true → (serviceStart env).1 = .ok ()) ∧
      (env.probeAfter = false → (serviceStart env).1 = .error .startFailed)) := by
  refine ⟨fun h => ?_, fun h hf => ?_, fun path h hf hs => ?_⟩
  · unfold serviceStart
    rw [if_pos h]
  · unfold serviceStart
    rw [if_neg (by simp [h]), hf]
  · unfold serviceStart
    rw [if_neg (by simp [h]), hf]
    cases hpa : env.probeAfter
    · simp [hs]
    · simp [hs]

/-- C8 (witness): the supervisor theorem at a healthy owner, at a missing
binary, and at a spawn whose settle re-probe stays unreachable. -/
theorem serviceStart_spec_witness :
    serviceStart ⟨true, none, none, none, none, true, true⟩ = (.ok (), [.probe]) ∧
    serviceStart ⟨false, none, none, none, none, true, true⟩ =
      (.error .binaryNotFound, [.probe]) ∧
    (serviceStart ⟨false, some "mcp_service".toList, none, none, none, true, false⟩).2 =
      [.probe, .spawnDetached "mcp_service".toList, .sleepMs 1500, .probe] ∧
    (serviceStart ⟨false, some "mcp_service".toList, none, none, none, true, false⟩).1 =
      .error .startFailed :=
  ⟨(serviceStart_spec ⟨true, none, none, none, none, true, true⟩).1 rfl,
   (serviceStart_spec ⟨false, none, none, none, none, true, true⟩).2.1 rfl rfl,
   ((serviceStart_spec ⟨false, some "mcp_service".toList, none, none, none,
      true, false⟩).2.2 "mcp_service".toList rfl rfl rfl).1,
   ((serviceStart_spec ⟨false, some "mcp_service".toList, none, none, none,
      true, false⟩).2.2 "mcp_service".toList rfl rfl rfl).2.2 rfl⟩

theorem monitorStep_start_inv {o : MonitorObs}
    (h : MonAction.startAttempt ∈ monitorStep o) :
    o.state = .running ∧ o.reachable = false := by
  cases hs : o.state <;> cases hr : o.reachable <;>
    simp [monitorStep, hs, hr] at h ⊢

theorem onResume_start_inv {state : ServiceState} {reachable : Bool}
    (h : MonAction.startAttempt ∈ onResume state reachable) :
    state = .running ∧ reachable = false := by
  cases state <;> cases reachable <;> simp [onResume] at h ⊢

/-- C9: a start attempt happens in the monitor loop or in the resume handler
only when the observed desired state is `Running` and the owner probe failed;
whenever every observed state is `Stopped` or `Unknown`, no iteration of the
health loop and no resume ever attempts a start. -/
theorem monitor_start_only_when_running :
    (∀ observations : List MonitorObs,
      (∀ o ∈ observations, o.state ≠ .running) →
      MonAction.startAttempt ∉ monitorTrace observations) ∧
    (∀ (state : ServiceState) (reachable : Bool), state ≠ .running →
      MonAction.startAttempt ∉ onResume state reachable) ∧
    (∀ o : MonitorObs, MonAction.startAttempt ∈ monitorStep o →
      o.state = .running ∧ o.reachable = false) ∧
    (∀ (state : ServiceState) (reachable : Bool),
      MonAction.startAttempt ∈ onResume state reachable →
      state = .running ∧ reachable = false) := by
  refine ⟨?_, ?_, fun o h => monitorStep_start_inv h,
    fun state reachable h => onResume_start_inv h⟩
  · intro observations hstates hmem
    rcases List.mem_flatMap.mp hmem with ⟨o, ho, hstep⟩
    exact hstates o ho (monitorStep_start_inv hstep).1
  · intro state reachable hstate hmem
    exact hstate (onResume_start_inv hmem).1

/-- C9 (witness): the monitor theorem at a two-iteration trace observing
`Stopped` then `Unknown`, at a stopped resume, and at the running/unreachable
inputs that do produce a start attempt. -/
theorem monitor_start_only_when_running_witness :
    MonAction.startAttempt ∉
      monitorTrace [{ state := .stopped, reachable := false },
        { state := .unknown, reachable := false }] ∧
    MonAction.startAttempt ∉ onResume .stopped false ∧
    ((⟨.running, false⟩ : MonitorObs).state = .running ∧
      (⟨.running, false⟩ : MonitorObs).reachable = false) ∧
    (ServiceState.running = .running ∧ false = false) :=
  ⟨monitor_start_only_when_running.1 _ (by decide),
   monitor_start_only_when_running.2.1 .stopped false (by decide),
   monitor_start_only_when_running.2.2.1 ⟨.running, false⟩ (by decide),
   monitor_start_only_when_running.2.2.2 .running false (by decide)⟩

theorem buildRemoteSearchRequest_tag_ide_irrelevant
    {emb : ContextEmbedding} {limit : Nat} {f g : QueryFilters}
    (hp : f.project = g.project) (hk : f.kind = g.kind) :
    buildRemoteSearchRequest emb limit f = buildRemoteSearchRequest emb limit g := by
  unfold buildRemoteSearchRequest
  rw [hp, hk]

/-- C10: the remote proxy's search serializes only the empty prompt, the
embedding vector, the limit, and the project/kind filters — a tag or ide
filter is never transmitted and cannot change the request or the results —
and every record reconstructed from the response carries empty tags and an
empty embedding vector. -/
theorem remote_search_spec :
    (∀ (emb : ContextEmbedding) (limit : Nat) (f g : QueryFilters),
      f.project = g.project → f.kind = g.kind →
      buildRemoteSearchRequest emb limit f = buildRemoteSearchRequest emb limit g) ∧
    (∀ (transport : RemoteTransport) (emb : ContextEmbedding) (limit : Nat)
        (f g : QueryFilters), f.project = g.project → f.kind = g.kind →
      remoteSearch transport emb limit f = remoteSearch transport emb limit g) ∧
    (∀ (transport : RemoteTransport) (emb : ContextEmbedding) (limit : Nat)
        (f : QueryFilters) (out : List (ContextRecord × ℚ)),
      remoteSearch transport emb limit f = .ok out →
      out.all (fun p => p.1.tags.isEmpty && p.1.embedding.vector.isEmpty) = true) := by
  refine ⟨fun emb limit f g hp hk =>
    buildRemoteSearchRequest_tag_ide_irrelevant hp hk, ?_, ?_⟩
  · intro transport emb limit f g hp hk
    unfold remoteSearch
    rw [buildRemoteSearchRequest_tag_ide_irrelevant hp hk]
  · intro transport emb limit f out h
    unfold remoteSearch at h
    split at h
    · cases h
    · cases h
      rw [List.all_eq_true]
      intro p hp
      rcases List.mem_filterMap.mp hp with ⟨item, -, hf⟩
      split at hf
      · cases hf
        rfl
      · cases hf

/-- Concrete remote response item used by the C10 witness. -/
def sampleRemoteItem : RemoteResultItem :=
  { id := some 1
    score := some 2
    project := some "pr".toList
    ide := some "vi".toList
    file_path := none
    language := none
    summary := some "s".toList
    body := some "b".toList
    kind := some .codeSnippet
    created_at := some 5 }

/-- C10 (witness): the remote-search theorem at filters differing only in
tag/ide, and at a one-item response. -/
theorem remote_search_spec_witness :
    buildRemoteSearchRequest ⟨"m".toList, [1]⟩ 5
        { project := some "p".toList, kind := some .codeSnippet,
          tag := some "t".toList, ide := some "vi".toList } =
      buildRemoteSearchRequest ⟨"m".toList, [1]⟩ 5
        { project := some "p".toList, kind := some .codeSnippet,
          tag := none, ide := none } ∧
    remoteSearch (fun _ => .ok [sampleRemoteItem]) ⟨"m".toList, [1]⟩ 5
        { project := some "p".toList, kind := some .codeSnippet,
          tag := some "t".toList, ide := some "vi".toList } =
      remoteSearch (fun _ => .ok [sampleRemoteItem]) ⟨"m".toList, [1]⟩ 5
        { project := some "p".toList, kind := some .codeSnippet,
          tag := none, ide := none } ∧
    (parseRemoteResults [sampleRemoteItem]).all
      (fun p => p.1.tags.isEmpty && p.1.embedding.vector.isEmpty) = true :=
  ⟨remote_search_spec.1 ⟨"m".toList, [1]⟩ 5 _ _ rfl rfl,
   remote_search_spec.2.1 (fun _ => .ok [sampleRemoteItem]) ⟨"m".toList, [1]⟩ 5
     _ _ rfl rfl,
   remote_search_spec.2.2 (fun _ => .ok [sampleRemoteItem]) ⟨"m".toList, [1]⟩ 5
     { project := some "p".toList, kind := some .codeSnippet,
       tag := some "t".toList, ide := some "vi".toList }
     (parseRemoteResults [sampleRemoteItem]) rfl⟩

end Ingat
